import Mathlib

/-!
Verification of the CPU-backend debug-info generator
(`lib/Backends/CPU/DebugInfo.cpp`) against its natural-language
specification.  The source file is shallowly embedded: every definition
below is a direct translation of a function of the source, with LLVM /
DWARF handles modelled as plain data.  Descriptor identity becomes
equality of freshly allocated numeric ids (an id is an index into the
list of nodes created by the `DIBuilder`), metadata nodes become
inductive values, and the mutable per-compilation state becomes explicit
state passing.  Functions whose only failure mode is a fatal `assert` or
`llvm_unreachable` return an `Option`, with `none` modelling the abort.
-/

namespace GlowDebugInfo

/-! ### Name normalization (initDebugInfo, lines 202-214)

The lambda `normalizeName` replaces every character of a value name that
is not accepted by `isalpha` / `isdigit` (C locale, i.e. ASCII) and is not
an underscore by an underscore. -/

/-- ASCII model of the C-locale `isalpha`. -/
def isalpha (c : Char) : Bool :=
  (0x41 ≤ c.toNat && c.toNat ≤ 0x5a) || (0x61 ≤ c.toNat && c.toNat ≤ 0x7a)

/-- ASCII model of the C-locale `isdigit`. -/
def isdigit (c : Char) : Bool :=
  0x30 ≤ c.toNat && c.toNat ≤ 0x39

/-- Body of the per-character loop of `normalizeName`: a character that is
not a letter, a digit or an underscore becomes an underscore. -/
def normalizeChar (c : Char) : Char :=
  if !isalpha c && !isdigit c && c != '_' then '_' else c

/-- Model of the `normalizeName` lambda of `initDebugInfo` (lines
202-214): the loop `for (auto &c : name)` rewrites each character of the
value's name in place. -/
def normalizeName (s : List Char) : List Char :=
  s.map normalizeChar

/-! ### Scanning the dumped IR for the body marker (initDebugInfo, lines 252-264)

The dumped textual IR is scanned line by line.  The C++ test is
`s.substr(0, 6) == "code {"`: the first six characters of the line are
compared with the marker (a prefix test, since `substr` truncates), and
on a match `mainFileFirstInstrLineNo_` is set to `lineNo + 1`.  If the
loop ends without a match the field stays 0 and the `assert` at line 263
aborts; this is modelled by the `none` result. -/

/-- Characters of the fixed body-opening marker string. -/
def codeMarker : List Char := ['c', 'o', 'd', 'e', ' ', '\x7b']

/-- Model of `s.substr(0, 6) == "code {"`: the first six characters of the
line equal the marker (for lines shorter than six characters `substr`
returns the whole line, which can never equal the six-character marker,
exactly as `List.take` behaves). -/
def lineStartsWithMarker (s : List Char) : Bool :=
  s.take 6 == codeMarker

/-- Model of the `while (getline(in, s))` scan loop: the argument counts
the lines consumed so far, a matching line at 1-based number `lineNo`
yields `lineNo + 1`. -/
def scanLoop : List (List Char) → Nat → Option Nat
  | [], _ => none
  | s :: rest, lineNo =>
    if lineStartsWithMarker s then some (lineNo + 2)
    else scanLoop rest (lineNo + 1)

/-- Model of the computation of `dbgInfo_.mainFileFirstInstrLineNo_`; a
`none` result models the fatal `assert` on a dump with no marker. -/
def mainFileFirstInstrLineNo (lines : List (List Char)) : Option Nat :=
  scanLoop lines 0

/-- Scan following the spec words of claim C2 (kept for comparison with
the source scan): only a line exactly equal to the marker counts. -/
def specScanExactMarker : List (List Char) → Nat → Option Nat
  | [], _ => none
  | s :: rest, lineNo =>
    if s = codeMarker then some (lineNo + 2)
    else specScanExactMarker rest (lineNo + 1)

/-! ### Debug locations for IR instructions (setCurrentDebugLocation, lines 27-36) -/

/-- Reference to a debug scope descriptor (a `DISubprogram`); `id` models
node identity, `name` models `DIScope::getName()`. -/
structure DIScopeRef where
  id : Nat
  name : String
deriving DecidableEq, Repr

/-- Model of `llvm::DILocation`: line, column and scope. -/
structure DILocation where
  line : Nat
  col : Nat
  scope : DIScopeRef
deriving DecidableEq, Repr

/-- Model of `LLVMIRGen::setCurrentDebugLocation` (lines 27-36): with the
flag off the builder's current location is untouched; otherwise the
location `(mainFileFirstInstrLineNo_ + instrNum, 0, mainF_)` becomes the
builder's current debug location. -/
def setCurrentDebugLocation (emitDebugInfo : Bool) (firstInstrLineNo : Nat)
    (mainF : DIScopeRef) (instrNum : Nat) (builderLoc : Option DILocation) :
    Option DILocation :=
  if !emitDebugInfo then builderLoc
  else some ⟨firstInstrLineNo + instrNum, 0, mainF⟩

/-- Locations produced for an entry function whose `k` instructions carry
stable numbers `0 .. k-1` (the `instrNumbering_` numbering is established
once over the whole function before lowering, so instruction `i` has
number `i`). -/
def locateEntryFunction (firstInstrLineNo : Nat) (mainF : DIScopeRef)
    (k : Nat) : List (Option DILocation) :=
  (List.range k).map
    (fun i => setCurrentDebugLocation true firstInstrLineNo mainF i none)

/-! ### The DWARF address expression (emitDebugGlobalVariableForValue, lines 323-337) -/

/-- DWARF opcode `DW_OP_deref`. -/
def DW_OP_deref : Nat := 0x06

/-- DWARF opcode `DW_OP_constu`. -/
def DW_OP_constu : Nat := 0x10

/-- DWARF opcode `DW_OP_plus`. -/
def DW_OP_plus : Nat := 0x22

/-- Modulus of 64-bit machine arithmetic used by a DWARF evaluator. -/
def wordModulus : Nat := 2 ^ 64

/-- The operation list built at lines 325-335: dereference the
base-pointer global, push the static offset, add. -/
def debugAddressOps (offset : Nat) : List Nat :=
  [DW_OP_deref, DW_OP_constu, offset, DW_OP_plus]

/-- Stack machine for the fragment of DWARF expressions used here.  The
initial stack holds the address of the variable the expression is
attached to (the base-pointer global); `DW_OP_deref` replaces the top
address by the 64-bit word stored there, `DW_OP_constu` pushes its inline
literal operand, `DW_OP_plus` adds the two top entries.  The result is
the final top of stack; a malformed expression yields `none`. -/
def evalDIExpr (mem : Nat → Nat) : List Nat → List Nat → Option Nat
  | [], stack =>
    match stack with
    | v :: _ => some v
    | [] => none
  | op :: rest, stack =>
    if op = DW_OP_deref then
      match stack with
      | a :: s => evalDIExpr mem rest (mem a % wordModulus :: s)
      | [] => none
    else if op = DW_OP_constu then
      match rest, stack with
      | n :: rest2, s => evalDIExpr mem rest2 (n % wordModulus :: s)
      | [], _ => none
    else if op = DW_OP_plus then
      match stack with
      | a :: b :: s => evalDIExpr mem rest ((b + a) % wordModulus :: s)
      | _ => none
    else none

/-! ### Storage classes and base-pointer globals -/

/-- Model of `AllocationsInfo::ValueKind`. -/
inductive ValueKind where
  | Activation
  | ConstantWeight
  | MutableWeight
deriving DecidableEq, Repr

/-- The three base-pointer globals created by `initDebugInfo`
(lines 174-188). -/
inductive BaseAddressGV where
  | constWeightsBaseAddress
  | mutableWeightsBaseAddress
  | activationsBaseAddress
deriving DecidableEq, Repr

/-- The `switch` at lines 309-322 selecting the base-pointer global of a
value's storage class. -/
def baseAddressForKind : ValueKind → BaseAddressGV
  | .Activation => .activationsBaseAddress
  | .ConstantWeight => .constWeightsBaseAddress
  | .MutableWeight => .mutableWeightsBaseAddress

/-! ### The debug type cache (getDebugType, lines 38-66)

LLVM types are modelled by the closed set of types generated code uses
(the `llvm_unreachable` default is outside this set); `DIBuilder` nodes
are modelled by an append-only list, a node's id being its index, so id
equality is node identity. -/

/-- The supported native LLVM types.  `sizeof(size_t) * 8 = 64` on the
host, so `getIntNTy(64)` is the dedicated `size_t` type. -/
inductive LLVMTy where
  | voidTy
  | floatTy
  | intTy (width : Nat)
  | ptrTy (pointee : LLVMTy)
deriving DecidableEq, Repr

/-- DWARF encoding `DW_ATE_float`. -/
def DW_ATE_float : Nat := 0x04

/-- DWARF encoding `DW_ATE_unsigned`. -/
def DW_ATE_unsigned : Nat := 0x07

/-- Nodes created through the `DIBuilder`. -/
inductive DINode where
  | basicType (name : String) (sizeInBits : Nat) (encoding : Nat)
  | pointerType (pointee : Option Nat) (sizeInBits : Nat)
  | subroutineType (paramTys : List (Option Nat))
  | subprogram (name : String) (tyId : Nat)
deriving DecidableEq, Repr

/-- The mutable state touched by `getDebugType`: the `DITypes_` cache
(an identity-keyed map, modelled as an association list in insertion
order) and the nodes created so far. -/
structure DebugInfoState where
  DITypes : List (LLVMTy × Option Nat)
  nodes : List DINode
deriving DecidableEq, Repr

/-- Empty state: fresh `DIBuilder`, empty cache. -/
def initialDebugInfoState : DebugInfoState := ⟨[], []⟩

/-- Lookup in the `DITypes_` cache (`count` / `operator[]` at
lines 42-43). -/
def cacheLookup (cache : List (LLVMTy × Option Nat)) (ty : LLVMTy) :
    Option (Option Nat) :=
  (cache.find? (fun p => decide (p.1 = ty))).map Prod.snd

/-- Creation of a fresh `DIBuilder` node; its id is its index in the
creation order, so distinct creations give distinct ids. -/
def createNode (st : DebugInfoState) (n : DINode) : Nat × DebugInfoState :=
  (st.nodes.length, { st with nodes := st.nodes ++ [n] })

/-- Model of `LLVMIRGen::getDebugType` (lines 38-66).  A cached type is
returned as is; otherwise the descriptor is built (void maps to the null
descriptor, float to a 32-bit float basic type, the 64-bit integer to the
dedicated `size_t` type, any other integer width to an unsigned basic
type named after its width, a pointer recursively from its pointee) and
recorded in the cache. -/
def getDebugType (st : DebugInfoState) : LLVMTy → Option Nat × DebugInfoState
  | .voidTy =>
    match cacheLookup st.DITypes .voidTy with
    | some cached => (cached, st)
    | none =>
      (none, { st with DITypes := st.DITypes ++ [(LLVMTy.voidTy, none)] })
  | .floatTy =>
    match cacheLookup st.DITypes .floatTy with
    | some cached => (cached, st)
    | none =>
      let r := createNode st (.basicType "float" 32 DW_ATE_float)
      (some r.1,
       { r.2 with DITypes := r.2.DITypes ++ [(LLVMTy.floatTy, some r.1)] })
  | .intTy w =>
    match cacheLookup st.DITypes (.intTy w) with
    | some cached => (cached, st)
    | none =>
      if w = 64 then
        let r := createNode st (.basicType "size_t" 64 DW_ATE_unsigned)
        (some r.1,
         { r.2 with DITypes := r.2.DITypes ++ [(LLVMTy.intTy w, some r.1)] })
      else
        let r := createNode st (.basicType ("int" ++ Nat.repr w) w DW_ATE_unsigned)
        (some r.1,
         { r.2 with DITypes := r.2.DITypes ++ [(LLVMTy.intTy w, some r.1)] })
  | .ptrTy p =>
    match cacheLookup st.DITypes (.ptrTy p) with
    | some cached => (cached, st)
    | none =>
      let inner := getDebugType st p
      let r := createNode inner.2 (.pointerType inner.1 64)
      (some r.1,
       { r.2 with DITypes := r.2.DITypes ++ [(LLVMTy.ptrTy p, some r.1)] })

/-- Nesting depth of pointer types; entries added to the cache while
resolving a type can only be for types of depth at most the resolved
type's depth. -/
def tyDepth : LLVMTy → Nat
  | .ptrTy p => tyDepth p + 1
  | _ => 0

/-- A sequence of `getDebugType` requests, threading the state. -/
def requestTypes (st : DebugInfoState) (tys : List LLVMTy) : DebugInfoState :=
  tys.foldl (fun s t => (getDebugType s t).2) st

/-- Keys currently present in the type cache. -/
def cacheKeys (st : DebugInfoState) : List LLVMTy :=
  st.DITypes.map Prod.fst

/-! ### Function debug info (getOrCreateFunctionDebugInfo, lines 125-161) -/

/-- Model of `llvm::Function` as far as this file reads it: name,
signature and the attached subprogram (id of a `DINode.subprogram`). -/
structure LLVMFunction where
  name : String
  returnTy : LLVMTy
  paramTys : List LLVMTy
  subprogram : Option Nat
deriving DecidableEq, Repr

/-- Characters of the LLVM intrinsic namespace marker. -/
def llvmIntrinsicStart : List Char := ['l', 'l', 'v', 'm', '.']

/-- Model of `F->getName().startswith("llvm.")`. -/
def isIntrinsicName (s : String) : Bool :=
  s.toList.take 5 == llvmIntrinsicStart

/-- Model of `LLVMIRGen::getOrCreateFunctionDebugInfo` (lines 125-161):
functions with an empty or `llvm.`-prefixed name get no debug info; a
function already carrying a subprogram keeps it and it is returned;
otherwise a subroutine type is built through the type cache (return type
first, then each parameter type), a subprogram node is created, attached
to the function and returned.  (The `scope`, `file` and `lineNo`
arguments of the source only flow into fields of the created node that no
claim mentions and are elided.) -/
def getOrCreateFunctionDebugInfo (st : DebugInfoState) (F : LLVMFunction) :
    Option Nat × LLVMFunction × DebugInfoState :=
  if F.name = "" || isIntrinsicName F.name then (none, F, st)
  else
    match F.subprogram with
    | some d => (some d, F, st)
    | none =>
      let ret := getDebugType st F.returnTy
      let params := F.paramTys.foldl
        (fun acc t =>
          let r := getDebugType acc.2 t
          (acc.1 ++ [r.1], r.2))
        (([ret.1] : List (Option Nat)), ret.2)
      let ty := createNode params.2 (.subroutineType params.1)
      let sp := createNode ty.2 (.subprogram F.name ty.1)
      (some sp.1, { F with subprogram := some sp.1 }, sp.2)

/-- Repeated calls of `getOrCreateFunctionDebugInfo` on the same
function, threading function and state. -/
def ensureSubprogramIter : Nat → LLVMFunction × DebugInfoState →
    LLVMFunction × DebugInfoState
  | 0, fs => fs
  | n + 1, fs =>
    let r := getOrCreateFunctionDebugInfo fs.2 fs.1
    ensureSubprogramIter n (r.2.1, r.2.2)

/-- Recognizer for subprogram nodes. -/
def isSubprogramNode : DINode → Bool
  | .subprogram _ _ => true
  | _ => false

/-- Number of subprogram descriptors created so far. -/
def subprogramCount (st : DebugInfoState) : Nat :=
  st.nodes.countP isSubprogramNode

/-! ### Argument shadows (generateFunctionDebugInfo, lines 87-107) -/

/-- One iteration of the argument loop produces: an alloca (the shadow
stack slot, indexed by creation order) of the parameter's type, a store
of the incoming argument into that slot, and a parameter-variable debug
record bound to the slot. -/
structure ArgDebugRecord where
  allocaIndex : Nat
  allocaTy : LLVMTy
  storedArg : Nat
  paramName : String
  paramPosition : Nat
deriving DecidableEq, Repr

/-- Model of the argument loop of `generateFunctionDebugInfo`
(lines 87-107): for `i` from 0 to `arg_size - 1`, allocate a shadow slot
of `getParamType(i)`, store argument `i` into it, and record a parameter
variable named `"arg" + (i + 1)` at position `i + 1` whose debug type is
resolved through the type cache. -/
def generateFunctionArgsDebugInfo (st0 : DebugInfoState) (F : LLVMFunction) :
    List ArgDebugRecord × DebugInfoState :=
  F.paramTys.enum.foldl
    (fun acc p =>
      let r := getDebugType acc.2 p.2
      (acc.1 ++ [{ allocaIndex := p.1, allocaTy := p.2, storedArg := p.1,
                   paramName := "arg" ++ Nat.repr (p.1 + 1),
                   paramPosition := p.1 + 1 }], r.2))
    ([], st0)

/-! ### Machine instructions and the location sweeps -/

/-- A generated machine instruction, as far as this file touches it: its
debug location. -/
structure MachineInstr where
  debugLoc : Option DILocation
deriving DecidableEq, Repr

/-- A function of the generated module as seen by `generateDebugInfo`. -/
structure MachineFunction where
  name : String
  isDeclaration : Bool
  subprogram : Option DIScopeRef
  instrs : List MachineInstr
deriving DecidableEq, Repr

/-- Per-instruction body of the sweep at lines 372-381: an instruction
with a location whose scope name differs from the enclosing function's
name is skipped; every other instruction (no location, or a location
whose scope name equals the function's name) receives the default
location `(0, 0, scope)`. -/
def sweepInstr (fname : String) (scope : DIScopeRef) (I : MachineInstr) :
    MachineInstr :=
  match I.debugLoc with
  | some loc => if loc.scope.name ≠ fname then I else ⟨some ⟨0, 0, scope⟩⟩
  | none => ⟨some ⟨0, 0, scope⟩⟩

/-- The per-function part of the sweep (lines 365-382): declarations and
functions without a subprogram are left untouched; otherwise every
instruction goes through `sweepInstr` with the function's subprogram as
the default scope. -/
def sweepFunction (F : MachineFunction) : MachineFunction :=
  if F.isDeclaration then F
  else
    match F.subprogram with
    | none => F
    | some scope => { F with instrs := F.instrs.map (sweepInstr F.name scope) }

/-- The whole-module sweep of `generateDebugInfo`. -/
def generateDebugInfoSweep (funcs : List MachineFunction) :
    List MachineFunction :=
  funcs.map sweepFunction

/-- The fill-in loop of `generateFunctionDebugInfo` (lines 114-122): only
instructions still lacking a location receive `(0, 0, scope)`. -/
def fillMissingDebugLoc (scope : DIScopeRef) (instrs : List MachineInstr) :
    List MachineInstr :=
  instrs.map fun I =>
    match I.debugLoc with
    | some _ => I
    | none => ⟨some ⟨0, 0, scope⟩⟩

/-! ### Tensor values and global-variable debug records
(emitDebugGlobalVariableForValue, lines 284-342) -/

/-- Glow IR values carrying a tensor: weight variables, activation
allocations, and tensor views (which reference the viewed value). -/
inductive Value where
  | weightVar (name : String)
  | allocActivation (name : String)
  | tensorView (name : String) (src : Value)
deriving DecidableEq, Repr

/-- Name of a value. -/
def Value.getName : Value → String
  | .weightVar n => n
  | .allocActivation n => n
  | .tensorView n _ => n

/-- Model of `getOrigin`: tensor views resolve through their source to
the underlying allocation. -/
def getOrigin : Value → Value
  | .tensorView _ src => getOrigin src
  | .weightVar n => .weightVar n
  | .allocActivation n => .allocActivation n

/-- Recognizer for tensor views. -/
def Value.isView : Value → Bool
  | .tensorView _ _ => true
  | _ => false

/-- The filter of the emission loops at lines 222 and 392:
`isa<AllocActivationInst> || isa<TensorViewInst>`. -/
def isAllocOrTensorView : Value → Bool
  | .allocActivation _ => true
  | .tensorView _ _ => true
  | .weightVar _ => false

/-- The slice of `AllocationsInfo` this file reads: the storage class
(`valueNumbers_[v].first`) and the static byte offset
(`allocatedAddressed_[v]`) of each value. -/
structure AllocationsInfo where
  valueKind : Value → ValueKind
  allocatedAddress : Value → Nat

/-- A created `DIGlobalVariableExpression`, together with the base
global it is attached to (`baseAddress->addDebugInfo(DIgv)`) and, for
bookkeeping, the underlying value the emission call resolved to. -/
structure DIGlobalVariableExpression where
  name : String
  expr : List Nat
  attachedTo : BaseAddressGV
  origin : Value
deriving DecidableEq, Repr

/-- Model of `LLVMIRGen::emitDebugGlobalVariableForValue`
(lines 284-342): the record's name is the name of the value passed in,
taken before resolving; the value is then resolved to its origin, whose
storage class selects the base-pointer global and whose planner offset
feeds the address expression `[deref, constu offset, plus]`. -/
def emitDebugGlobalVariableForValue (ai : AllocationsInfo) (val : Value) :
    DIGlobalVariableExpression :=
  let name := val.getName
  let v := getOrigin val
  { name := name
    expr := debugAddressOps (ai.allocatedAddress v)
    attachedTo := baseAddressForKind (ai.valueKind v)
    origin := v }

/-- The emission loops of `generateDebugInfo` (lines 386-395): one call
per weight variable, then one call per `AllocActivationInst` or
`TensorViewInst` of the entry function's IR. -/
def emitAllDebugGlobalVariables (ai : AllocationsInfo)
    (weights : List Value) (instrs : List Value) :
    List DIGlobalVariableExpression :=
  weights.map (emitDebugGlobalVariableForValue ai) ++
    (instrs.filter isAllocOrTensorView).map (emitDebugGlobalVariableForValue ai)

/-- Number of emitted records whose emission resolved to the given
underlying allocation. -/
def recordsForAllocation (recs : List DIGlobalVariableExpression)
    (a : Value) : Nat :=
  recs.countP (fun r => decide (r.origin = a))

/-- Concrete allocation info used on small concrete programs. -/
def aiExample : AllocationsInfo :=
  ⟨fun _ => ValueKind.Activation, fun _ => 0⟩

/-! ### The gated entry points (initDebugInfo, lines 163-282;
generateDebugInfo, lines 344-407)

`emitDebugInfo` is the activation flag (`-g`, default off, lines 23-25).
The observable output of the subsystem is collected in `ModuleState`. -/

/-- Observable effects of the subsystem on the module under
construction. -/
structure ModuleState where
  moduleFlags : List (String × Nat)
  globals : List String
  stores : List (Nat × String)
  writtenFile : Option (String × List (List Char))
  dbg : DebugInfoState
  firstInstrLineNo : Nat
  mainF : Option Nat
  records : List DIGlobalVariableExpression

/-- State of the module before the subsystem runs. -/
def initialModuleState : ModuleState :=
  ⟨[], [], [], none, initialDebugInfoState, 0, none, []⟩

/-- Model of `LLVMIRGen::initDebugInfo` (lines 163-282).  Off flag: no
effect at all.  On: module flags are added, the three base-pointer
globals are created and the first three entry arguments stored into
them, the IR dump is written to `<entryName>.glow`, the dump is scanned
for the marker (`none` models the fatal `assert` when it is absent), and
the entry function's subprogram is created.  (Name normalization of
weights and activations, lines 202-225, is the standalone `normalizeName`
above; the compile-unit and file records carry no data any claim
mentions.) -/
def initDebugInfoM (emitDebugInfo : Bool) (entryName : String)
    (main : Option LLVMFunction) (irLines : List (List Char))
    (st : ModuleState) : Option ModuleState :=
  if !emitDebugInfo then some st
  else
    let st1 : ModuleState := { st with
      moduleFlags := st.moduleFlags ++
        [("Debug Info Version", 3), ("Dwarf Version", 4)]
      globals := st.globals ++
        ["constWeightsBaseAddress", "mutableWeightsBaseAddress",
         "activationsBaseAddress"]
      stores := st.stores ++
        [(0, "constWeightsBaseAddress"), (1, "mutableWeightsBaseAddress"),
         (2, "activationsBaseAddress")]
      writtenFile := some (entryName ++ ".glow", irLines) }
    match mainFileFirstInstrLineNo irLines with
    | none => none
    | some lineNo =>
      match main with
      | none => some { st1 with firstInstrLineNo := lineNo }
      | some mainFn =>
        let r := getOrCreateFunctionDebugInfo st1.dbg mainFn
        some { st1 with firstInstrLineNo := lineNo, mainF := r.1,
                        dbg := r.2.2 }

/-- Model of `LLVMIRGen::generateDebugInfo` (lines 344-407).  Off flag:
no effect.  On: every lowered function must already carry a subprogram
(`llvm_unreachable` otherwise, modelled by `none`), the location sweep
runs over the module, and one global-variable record is emitted per
weight and per alloc-activation or tensor-view instruction.  (The final
`DIBuilder::finalize` and `verifyModule` calls only check well-formedness
of the LLVM metadata graph and are not modelled.) -/
def generateDebugInfoM (emitDebugInfo : Bool) (funcs : List MachineFunction)
    (ai : AllocationsInfo) (weights : List Value) (instrs : List Value)
    (st : ModuleState) : Option (ModuleState × List MachineFunction) :=
  if !emitDebugInfo then some (st, funcs)
  else if funcs.any (fun F => !F.isDeclaration && F.subprogram.isNone) then
    none
  else
    some ({ st with records := st.records ++
              emitAllDebugGlobalVariables ai weights instrs },
          generateDebugInfoSweep funcs)

/-- Scope reference for a node id: the node's name is looked up in the
creation list. -/
def scopeRefOfId (st : DebugInfoState) (id : Nat) : DIScopeRef :=
  ⟨id, match st.nodes[id]? with
       | some (.subprogram n _) => n
       | some (.basicType n _ _) => n
       | _ => ""⟩

/-- Model of `LLVMIRGen::generateFunctionDebugInfo` (lines 68-123).  Off
flag: no effect.  On: the function's subprogram is created through
`getOrCreateFunctionDebugInfo`, the argument shadows are emitted, and the
fill-in loop gives every machine instruction of the function still
lacking a location the default `(0, 0, scope)` (skipped when the function
got no subprogram). -/
def generateFunctionDebugInfoM (emitDebugInfo : Bool) (st : DebugInfoState)
    (F : LLVMFunction) (instrs : List MachineInstr) :
    List ArgDebugRecord × LLVMFunction × DebugInfoState × List MachineInstr :=
  if !emitDebugInfo then ([], F, st, instrs)
  else
    let r := getOrCreateFunctionDebugInfo st F
    let a := generateFunctionArgsDebugInfo r.2.2 r.2.1
    match r.2.1.subprogram with
    | none => (a.1, r.2.1, a.2, instrs)
    | some spId =>
      (a.1, r.2.1, a.2, fillMissingDebugLoc (scopeRefOfId a.2 spId) instrs)

/-! ## Lemmas -/

lemma normalizeChar_idem (c : Char) :
    normalizeChar (normalizeChar c) = normalizeChar c := by
  cases ha : isalpha c <;> cases hd : isdigit c <;> cases hu : (c == '_') <;>
    simp [normalizeChar, ha, hd, hu, bne]

lemma normalizeChar_valid (c : Char) :
    isalpha (normalizeChar c) || isdigit (normalizeChar c)
      || (normalizeChar c == '_') := by
  cases ha : isalpha c <;> cases hd : isdigit c <;> cases hu : (c == '_') <;>
    simp [normalizeChar, ha, hd, hu, bne]

lemma scanLoop_some (lines : List (List Char)) (n m : Nat)
    (h : scanLoop lines n = some m) :
    ∃ pre s post, lines = pre ++ s :: post ∧
      (∀ t ∈ pre, lineStartsWithMarker t = false) ∧
      lineStartsWithMarker s = true ∧ m = n + pre.length + 2 := by
  induction lines generalizing n with
  | nil => simp [scanLoop] at h
  | cons s rest ih =>
    rw [scanLoop] at h
    by_cases hs : lineStartsWithMarker s
    · rw [if_pos hs] at h
      refine ⟨[], s, rest, by simp, by simp, hs, ?_⟩
      have h2 := Option.some.inj h
      simp only [List.length_nil]
      omega
    · rw [if_neg hs] at h
      rcases ih (n + 1) h with ⟨pre, t, post, hsplit, hpre, ht, hm⟩
      refine ⟨s :: pre, t, post, by rw [hsplit]; rfl, ?_, ht, ?_⟩
      · intro u hu
        rcases List.mem_cons.mp hu with rfl | hu
        · exact Bool.eq_false_iff.mpr hs
        · exact hpre u hu
      · simp [hm]; omega

lemma scanLoop_none (lines : List (List Char)) (n : Nat) :
    scanLoop lines n = none ↔
      ∀ s ∈ lines, lineStartsWithMarker s = false := by
  induction lines generalizing n with
  | nil => simp [scanLoop]
  | cons s rest ih =>
    rw [scanLoop]
    by_cases hs : lineStartsWithMarker s
    · simp [if_pos hs, hs]
    · simp only [if_neg hs, ih (n + 1), List.mem_cons]
      constructor
      · intro h t h2
        rcases h2 with rfl | h2
        · exact Bool.eq_false_iff.mpr hs
        · exact h t h2
      · intro h t h2
        exact h t (Or.inr h2)

lemma foldl_append_map {α β : Type} {σ : Type} (g : α → β) (h : σ → α → σ)
    (l : List α) (a : List β) (s : σ) :
    (l.foldl (fun acc p => (acc.1 ++ [g p], h acc.2 p)) (a, s)).1 =
      a ++ l.map g := by
  induction l generalizing a s with
  | nil => simp
  | cons x xs ih => simp [List.foldl_cons, ih]

lemma generateFunctionArgsDebugInfo_records (st : DebugInfoState)
    (F : LLVMFunction) :
    (generateFunctionArgsDebugInfo st F).1 =
      F.paramTys.enum.map (fun p =>
        { allocaIndex := p.1, allocaTy := p.2, storedArg := p.1,
          paramName := "arg" ++ Nat.repr (p.1 + 1),
          paramPosition := p.1 + 1 : ArgDebugRecord }) := by
  have h := foldl_append_map
    (fun p : Nat × LLVMTy =>
      { allocaIndex := p.1, allocaTy := p.2, storedArg := p.1,
        paramName := "arg" ++ Nat.repr (p.1 + 1),
        paramPosition := p.1 + 1 : ArgDebugRecord })
    (fun s p => (getDebugType s p.2).2) F.paramTys.enum [] st
  simpa [generateFunctionArgsDebugInfo] using h

lemma getOrigin_not_view (v : Value) : (getOrigin v).isView = false := by
  induction v with
  | weightVar n => rfl
  | allocActivation n => rfl
  | tensorView n src ih => simpa [getOrigin] using ih

lemma cacheLookup_append (l1 l2 : List (LLVMTy × Option Nat)) (ty : LLVMTy) :
    cacheLookup (l1 ++ l2) ty = (cacheLookup l1 ty).or (cacheLookup l2 ty) := by
  unfold cacheLookup
  rw [List.find?_append]
  cases List.find? (fun p => decide (p.1 = ty)) l1 <;> simp

lemma cacheLookup_eq_none (l : List (LLVMTy × Option Nat)) (ty : LLVMTy) :
    cacheLookup l ty = none ↔ ∀ q ∈ l, q.1 ≠ ty := by
  unfold cacheLookup
  simp

lemma cacheLookup_singleton_self (ty : LLVMTy) (d : Option Nat) :
    cacheLookup [(ty, d)] ty = some d := by
  simp [cacheLookup, List.find?]

lemma cacheLookup_mem {l : List (LLVMTy × Option Nat)} {ty : LLVMTy}
    {d : Option Nat} (h : cacheLookup l ty = some d) : (ty, d) ∈ l := by
  unfold cacheLookup at h
  rcases hf : List.find? (fun p => decide (p.1 = ty)) l with _ | q
  · rw [hf] at h
    simp at h
  · rw [hf] at h
    have h2 : q.2 = d := Option.some.inj h
    have hq : q.1 = ty := by simpa using List.find?_some hf
    have hmem := List.mem_of_find?_eq_some hf
    rw [← hq, ← h2]
    exact Prod.mk.eta ▸ hmem

lemma getDebugType_delta (ty : LLVMTy) :
    ∀ st : DebugInfoState, ∃ Δ ns,
      (getDebugType st ty).2.DITypes = st.DITypes ++ Δ ∧
      (getDebugType st ty).2.nodes = st.nodes ++ ns ∧
      (∀ q ∈ Δ, tyDepth q.1 ≤ tyDepth ty ∧
        cacheLookup st.DITypes q.1 = none) ∧
      (Δ.map Prod.fst).Nodup ∧
      (∀ n ∈ ns, isSubprogramNode n = false) ∧
      cacheLookup (getDebugType st ty).2.DITypes ty =
        some (getDebugType st ty).1 := by
  induction ty with
  | voidTy =>
    intro st
    rcases hc : cacheLookup st.DITypes .voidTy with _ | cached
    · refine ⟨[(.voidTy, none)], [], ?_, ?_, ?_, ?_, ?_, ?_⟩ <;>
        simp [getDebugType, hc, cacheLookup_append,
          cacheLookup_singleton_self, tyDepth]
    · exact ⟨[], [], by simp [getDebugType, hc], by simp [getDebugType, hc],
        by simp, by simp, by simp, by simp [getDebugType, hc]⟩
  | floatTy =>
    intro st
    rcases hc : cacheLookup st.DITypes .floatTy with _ | cached
    · refine ⟨[(.floatTy, some st.nodes.length)],
        [.basicType "float" 32 DW_ATE_float], ?_, ?_, ?_, ?_, ?_, ?_⟩ <;>
        simp [getDebugType, hc, createNode, cacheLookup_append,
          cacheLookup_singleton_self, tyDepth, isSubprogramNode]
    · exact ⟨[], [], by simp [getDebugType, hc], by simp [getDebugType, hc],
        by simp, by simp, by simp, by simp [getDebugType, hc]⟩
  | intTy w =>
    intro st
    rcases hc : cacheLookup st.DITypes (.intTy w) with _ | cached
    · by_cases hw : w = 64
      · subst hw
        refine ⟨[(.intTy 64, some st.nodes.length)],
          [.basicType "size_t" 64 DW_ATE_unsigned], ?_, ?_, ?_, ?_, ?_, ?_⟩ <;>
          simp [getDebugType, hc, createNode, cacheLookup_append,
            cacheLookup_singleton_self, tyDepth, isSubprogramNode]
      · refine ⟨[(.intTy w, some st.nodes.length)],
          [.basicType ("int" ++ Nat.repr w) w DW_ATE_unsigned],
          ?_, ?_, ?_, ?_, ?_, ?_⟩ <;>
          simp [getDebugType, hc, hw, createNode, cacheLookup_append,
            cacheLookup_singleton_self, tyDepth, isSubprogramNode]
    · exact ⟨[], [], by simp [getDebugType, hc], by simp [getDebugType, hc],
        by simp, by simp, by simp, by simp [getDebugType, hc]⟩
  | ptrTy p ih =>
    intro st
    rcases hc : cacheLookup st.DITypes (.ptrTy p) with _ | cached
    · obtain ⟨Δp, nsp, h1, h2, h3, h4, h5, h6⟩ := ih st
      refine ⟨Δp ++ [(.ptrTy p, some ((getDebugType st p).2.nodes.length))],
        nsp ++ [.pointerType (getDebugType st p).1 64],
        ?_, ?_, ?_, ?_, ?_, ?_⟩
      · simp [getDebugType, hc, createNode, h1, List.append_assoc]
      · simp [getDebugType, hc, createNode, h2, List.append_assoc]
      · intro q hq
        rcases List.mem_append.mp hq with hq | hq
        · obtain ⟨hd, hl⟩ := h3 q hq
          exact ⟨le_trans hd (by simp [tyDepth]), hl⟩
        · rcases List.mem_singleton.mp hq with rfl
          exact ⟨le_refl _, hc⟩
      · rw [List.map_append, List.nodup_append]
        refine ⟨h4, by simp, ?_⟩
        intro x hx hx2
        simp only [List.map_cons, List.map_nil, List.mem_singleton] at hx2
        subst hx2
        rcases List.mem_map.mp hx with ⟨q, hq, hqx⟩
        have hd := (h3 q hq).1
        rw [hqx] at hd
        simp [tyDepth] at hd
      · intro n hn
        rcases List.mem_append.mp hn with hn | hn
        · exact h5 n hn
        · rcases List.mem_singleton.mp hn with rfl
          rfl
      · have hΔ : cacheLookup Δp (.ptrTy p) = none := by
          rw [cacheLookup_eq_none]
          intro q hq h
          have hd := (h3 q hq).1
          rw [h] at hd
          simp [tyDepth] at hd
        simp [getDebugType, hc, createNode, h1, cacheLookup_append, hΔ,
          cacheLookup_singleton_self, List.append_assoc]
    · exact ⟨[], [], by simp [getDebugType, hc], by simp [getDebugType, hc],
        by simp, by simp, by simp, by simp [getDebugType, hc]⟩

lemma getDebugType_cacheHit (st : DebugInfoState) (ty : LLVMTy)
    (d : Option Nat) (h : cacheLookup st.DITypes ty = some d) :
    getDebugType st ty = (d, st) := by
  cases ty <;> simp [getDebugType, h]

lemma getDebugType_idem (st : DebugInfoState) (ty : LLVMTy) :
    getDebugType (getDebugType st ty).2 ty =
      ((getDebugType st ty).1, (getDebugType st ty).2) := by
  obtain ⟨Δ, ns, _, _, _, _, _, h6⟩ := getDebugType_delta ty st
  exact getDebugType_cacheHit _ _ _ h6

lemma getDebugType_nodupKeys (ty : LLVMTy) (st : DebugInfoState)
    (h : (cacheKeys st).Nodup) :
    (cacheKeys (getDebugType st ty).2).Nodup := by
  obtain ⟨Δ, ns, h1, _, h3, h4, _, _⟩ := getDebugType_delta ty st
  rw [cacheKeys, h1, List.map_append, List.nodup_append]
  refine ⟨h, h4, ?_⟩
  intro x hx hxΔ
  rcases List.mem_map.mp hxΔ with ⟨q, hq, rfl⟩
  have h2q := (h3 q hq).2
  rw [cacheLookup_eq_none] at h2q
  rcases List.mem_map.mp hx with ⟨q2, hq2, hq2e⟩
  exact h2q q2 hq2 hq2e

lemma getDebugType_mem_self (ty : LLVMTy) (st : DebugInfoState) :
    ty ∈ cacheKeys (getDebugType st ty).2 := by
  obtain ⟨Δ, ns, _, _, _, _, _, h6⟩ := getDebugType_delta ty st
  exact List.mem_map.mpr ⟨_, cacheLookup_mem h6, rfl⟩

lemma getDebugType_keys_mono (ty x : LLVMTy) (st : DebugInfoState)
    (h : x ∈ cacheKeys st) : x ∈ cacheKeys (getDebugType st ty).2 := by
  obtain ⟨Δ, ns, h1, _, _, _, _, _⟩ := getDebugType_delta ty st
  rw [cacheKeys, h1, List.map_append]
  exact List.mem_append_left _ h

lemma requestTypes_nodup (tys : List LLVMTy) :
    ∀ st, (cacheKeys st).Nodup →
      (cacheKeys (requestTypes st tys)).Nodup := by
  induction tys with
  | nil => intro st h; exact h
  | cons t ts ih =>
    intro st h
    exact ih _ (getDebugType_nodupKeys t st h)

lemma requestTypes_mem (tys : List LLVMTy) :
    ∀ st t, t ∈ tys ∨ t ∈ cacheKeys st →
      t ∈ cacheKeys (requestTypes st tys) := by
  induction tys with
  | nil =>
    intro st t h
    rcases h with h | h
    · exact absurd h (List.not_mem_nil t)
    · exact h
  | cons u ts ih =>
    intro st t h
    rcases h with h | h
    · rcases List.mem_cons.mp h with rfl | h
      · exact ih _ t (Or.inr (getDebugType_mem_self t st))
      · exact ih _ t (Or.inl h)
    · exact ih _ t (Or.inr (getDebugType_keys_mono u t st h))

lemma getDebugType_subprogramCount (ty : LLVMTy) (st : DebugInfoState) :
    subprogramCount (getDebugType st ty).2 = subprogramCount st := by
  obtain ⟨Δ, ns, _, h2, _, _, h5, _⟩ := getDebugType_delta ty st
  rw [subprogramCount, h2, List.countP_append]
  have hz : ns.countP isSubprogramNode = 0 := by
    rw [List.countP_eq_zero]
    intro n hn
    simp [h5 n hn]
  rw [hz]
  rfl

lemma foldParams_subprogramCount (l : List LLVMTy) :
    ∀ acc : List (Option Nat) × DebugInfoState,
      subprogramCount ((l.foldl (fun acc t =>
          let r := getDebugType acc.2 t
          (acc.1 ++ [r.1], r.2)) acc).2) = subprogramCount acc.2 := by
  induction l with
  | nil => intro acc; rfl
  | cons t ts ih =>
    intro acc
    rw [List.foldl_cons, ih]
    exact getDebugType_subprogramCount t acc.2

lemma getOrCreateFunctionDebugInfo_null (st : DebugInfoState)
    (F : LLVMFunction) (h : F.name = "" ∨ isIntrinsicName F.name = true) :
    getOrCreateFunctionDebugInfo st F = (none, F, st) := by
  unfold getOrCreateFunctionDebugInfo
  rcases h with h | h <;> simp [h]

lemma getOrCreateFunctionDebugInfo_existing (st : DebugInfoState)
    (F : LLVMFunction) (d : Nat) (hN : F.name ≠ "")
    (hI : isIntrinsicName F.name = false) (h : F.subprogram = some d) :
    getOrCreateFunctionDebugInfo st F = (some d, F, st) := by
  unfold getOrCreateFunctionDebugInfo
  simp [hN, hI, h]

lemma getOrCreateFunctionDebugInfo_create (st : DebugInfoState)
    (F : LLVMFunction) (hN : F.name ≠ "")
    (hI : isIntrinsicName F.name = false) (h : F.subprogram = none) :
    ∃ spId st1,
      getOrCreateFunctionDebugInfo st F =
        (some spId, { F with subprogram := some spId }, st1) ∧
      subprogramCount st1 = subprogramCount st + 1 := by
  have hcond : ¬((decide (F.name = "") || isIntrinsicName F.name) = true) := by
    simp [hN, hI]
  have hE : ∃ spId st1, getOrCreateFunctionDebugInfo st F =
      (some spId, { F with subprogram := some spId }, st1) := by
    unfold getOrCreateFunctionDebugInfo
    rw [if_neg hcond, h]
    exact ⟨_, _, rfl⟩
  have hcount : subprogramCount (getOrCreateFunctionDebugInfo st F).2.2 =
      subprogramCount st + 1 := by
    unfold getOrCreateFunctionDebugInfo
    simp only [if_neg hcond, h]
    have hfold := foldParams_subprogramCount F.paramTys
      ([(getDebugType st F.returnTy).1], (getDebugType st F.returnTy).2)
    have hret := getDebugType_subprogramCount F.returnTy st
    simp only [subprogramCount] at hfold hret ⊢
    simp [createNode, List.countP_append, List.countP_cons,
      isSubprogramNode, hfold, hret]
  obtain ⟨spId, st1, hE⟩ := hE
  rw [hE] at hcount
  exact ⟨spId, st1, hE, hcount⟩

lemma ensureSubprogramIter_fixed (N : Nat) (F : LLVMFunction)
    (st : DebugInfoState) (d : Nat)
    (hfix : getOrCreateFunctionDebugInfo st F = (some d, F, st)) :
    ensureSubprogramIter N (F, st) = (F, st) := by
  induction N with
  | zero => rfl
  | succ n ih =>
    simp only [ensureSubprogramIter, hfix]
    exact ih

/-! ## Claim theorems -/

/-- Claim C6: name normalization is total (a function on all strings),
idempotent, length-preserving, and every character of its output is an
ASCII letter, an ASCII digit, or an underscore. -/
theorem normalizeName_total_idem_lengthPreserving (s : List Char) :
    normalizeName (normalizeName s) = normalizeName s ∧
    (normalizeName s).length = s.length ∧
    ∀ c ∈ normalizeName s, isalpha c || isdigit c || (c == '_') := by
  refine ⟨?_, ?_, ?_⟩
  · unfold normalizeName
    rw [List.map_map]
    apply List.map_congr_left
    intro c _
    exact normalizeChar_idem c
  · exact s.length_map normalizeChar
  · intro c hc
    unfold normalizeName at hc
    rcases List.mem_map.mp hc with ⟨a, _, ha⟩
    rw [← ha]
    exact normalizeChar_valid a

/-- Witness for C6: the tensor name `W-1.bias` normalizes to `W_1_bias`,
same length, only identifier characters, and renormalizing changes
nothing. -/
theorem normalizeName_witness :
    normalizeName (normalizeName
        ['W', '-', '1', '.', 'b', 'i', 'a', 's']) =
      normalizeName ['W', '-', '1', '.', 'b', 'i', 'a', 's'] ∧
    (normalizeName ['W', '-', '1', '.', 'b', 'i', 'a', 's']).length =
      (['W', '-', '1', '.', 'b', 'i', 'a', 's'] : List Char).length ∧
    ∀ c ∈ normalizeName ['W', '-', '1', '.', 'b', 'i', 'a', 's'],
      isalpha c || isdigit c || (c == '_') :=
  normalizeName_total_idem_lengthPreserving
    ['W', '-', '1', '.', 'b', 'i', 'a', 's']

/-- Claim C1: the location attached for an IR instruction has line number
`mainFileFirstInstrLineNo_ + instrNum`, column 0, and the entry
function's subprogram as scope; in particular, for an entry function with
instructions stably numbered `0 .. k-1`, instruction `i` receives line
`firstInstrLineNo + i`. -/
theorem setCurrentDebugLocation_entry (firstInstrLineNo : Nat)
    (mainF : DIScopeRef) (k i : Nat) (hi : i < k)
    (instrNum : Nat) (builderLoc : Option DILocation) :
    setCurrentDebugLocation true firstInstrLineNo mainF instrNum builderLoc =
      some ⟨firstInstrLineNo + instrNum, 0, mainF⟩ ∧
    (locateEntryFunction firstInstrLineNo mainF k)[i]? =
      some (some ⟨firstInstrLineNo + i, 0, mainF⟩) := by
  refine ⟨rfl, ?_⟩
  simp [locateEntryFunction, setCurrentDebugLocation,
    List.getElem?_range hi]

/-- Witness for C1: with `firstInstrLineNo = 11` and five instructions,
instruction 4 receives line 15, column 0, the entry scope. -/
theorem setCurrentDebugLocation_entry_witness :
    setCurrentDebugLocation true 11 ⟨9, "main"⟩ 4 none =
      some ⟨15, 0, ⟨9, "main"⟩⟩ ∧
    (locateEntryFunction 11 ⟨9, "main"⟩ 5)[4]? =
      some (some ⟨15, 0, ⟨9, "main"⟩⟩) :=
  setCurrentDebugLocation_entry 11 ⟨9, "main"⟩ 5 4 (by decide) 4 none

/-- Counterexample to claim C2 as stated: the source performs a prefix
comparison (`substr(0, 6)`), so on a dump whose only line begins with the
marker but is not exactly equal to it, the scan succeeds with line 2
instead of failing fatally (no line of the dump is exactly the marker,
and the scan demanded by the claim's words finds nothing). -/
theorem mainFileFirstInstrLineNo_prefix_cex :
    mainFileFirstInstrLineNo
        [['c', 'o', 'd', 'e', ' ', '\x7b', ' ', 'j', 'u', 'n', 'k']] =
      some 2 ∧
    ['c', 'o', 'd', 'e', ' ', '\x7b', ' ', 'j', 'u', 'n', 'k'] ≠
      codeMarker ∧
    specScanExactMarker
        [['c', 'o', 'd', 'e', ' ', '\x7b', ' ', 'j', 'u', 'n', 'k']] 0 =
      none := by
  refine ⟨by decide, by decide, by decide⟩

/-- Claim C2 (amended): the first line whose first six characters equal
the marker `"code \x7b"` determines `mainFileFirstInstrLineNo_` as that
marker's 1-based line number plus one; if no line starts with the marker
the scan yields nothing and the fatal `assert` fires. -/
theorem mainFileFirstInstrLineNo_spec (lines : List (List Char)) :
    (∀ m, mainFileFirstInstrLineNo lines = some m →
      ∃ pre s post, lines = pre ++ s :: post ∧
        (∀ t ∈ pre, lineStartsWithMarker t = false) ∧
        lineStartsWithMarker s = true ∧ m = (pre.length + 1) + 1) ∧
    (mainFileFirstInstrLineNo lines = none ↔
      ∀ s ∈ lines, lineStartsWithMarker s = false) := by
  constructor
  · intro m h
    rcases scanLoop_some lines 0 m h with ⟨pre, s, post, h1, h2, h3, h4⟩
    exact ⟨pre, s, post, h1, h2, h3, by omega⟩
  · exact scanLoop_none lines 0

/-- Witness for C2 (amended): a dump with one non-marker line followed by
the marker on line 2 gives first-instruction line 3. -/
theorem mainFileFirstInstrLineNo_spec_witness :
    ∃ pre s post, ([['a'], codeMarker] : List (List Char)) =
        pre ++ s :: post ∧
      (∀ t ∈ pre, lineStartsWithMarker t = false) ∧
      lineStartsWithMarker s = true ∧ 3 = (pre.length + 1) + 1 :=
  (mainFileFirstInstrLineNo_spec [['a'], codeMarker]).1 3 (by decide)

/-- Claim C5: the emitted address expression is exactly the program
`[DW_OP_deref, DW_OP_constu, offset, DW_OP_plus]`, and evaluating it with
the run-time base pointers in memory yields the storage class's base
address plus the planner's offset. -/
theorem debugAddressExpr_evaluates (kind : ValueKind) (offset : Nat)
    (gvAddr : BaseAddressGV → Nat) (mem : Nat → Nat)
    (h : mem (gvAddr (baseAddressForKind kind)) + offset < wordModulus) :
    debugAddressOps offset =
      [DW_OP_deref, DW_OP_constu, offset, DW_OP_plus] ∧
    evalDIExpr mem (debugAddressOps offset)
        [gvAddr (baseAddressForKind kind)] =
      some (mem (gvAddr (baseAddressForKind kind)) + offset) := by
  refine ⟨rfl, ?_⟩
  have h1 : mem (gvAddr (baseAddressForKind kind)) < wordModulus :=
    lt_of_le_of_lt (Nat.le_add_right _ _) h
  have h2 : offset < wordModulus := lt_of_le_of_lt (Nat.le_add_left _ _) h
  simp [evalDIExpr, debugAddressOps, DW_OP_deref, DW_OP_constu, DW_OP_plus,
    Nat.mod_eq_of_lt h1, Nat.mod_eq_of_lt h2, Nat.mod_eq_of_lt h]

/-- Witness for C5: a constant weight at offset 128 with base pointer
4096 resolves to address 4224. -/
theorem debugAddressExpr_evaluates_witness :
    debugAddressOps 128 =
      [DW_OP_deref, DW_OP_constu, 128, DW_OP_plus] ∧
    evalDIExpr (fun _ => 4096) (debugAddressOps 128) [0] = some 4224 :=
  debugAddressExpr_evaluates ValueKind.ConstantWeight 128 (fun _ => 0)
    (fun _ => 4096) (by decide)

/-- Claim C10: the argument loop allocates exactly one shadow slot per
parameter, stores incoming argument `i` into slot `i`, and names the
`i`-th parameter's debug variable with the ONE-based index
`"arg" ++ (i + 1)` at position `i + 1`. -/
theorem generateFunctionArgsDebugInfo_spec (st : DebugInfoState)
    (F : LLVMFunction) (i : Nat) :
    (generateFunctionArgsDebugInfo st F).1.length = F.paramTys.length ∧
    ((generateFunctionArgsDebugInfo st F).1)[i]? =
      (F.paramTys[i]?).map (fun ty =>
        { allocaIndex := i, allocaTy := ty, storedArg := i,
          paramName := "arg" ++ Nat.repr (i + 1),
          paramPosition := i + 1 }) := by
  rw [generateFunctionArgsDebugInfo_records]
  constructor
  · simp
  · simp only [List.getElem?_map, List.getElem?_enum, Option.map_map]
    rfl

/-- Counterexample to claim C4 as stated: an instruction that already
carries a location whose scope name equals the enclosing function's name
does NOT keep it — the sweep overwrites it with the default line-0
location (the source only skips locations whose scope name differs from
the function's name). -/
theorem sweepFunction_overwrites_cex :
    sweepFunction
        ⟨"main", false, some ⟨7, "main"⟩,
          [⟨some ⟨5, 0, ⟨7, "main"⟩⟩⟩]⟩ =
      ⟨"main", false, some ⟨7, "main"⟩,
        [⟨some ⟨0, 0, ⟨7, "main"⟩⟩⟩]⟩ := by
  decide

/-- Claim C4 (amended): the sweep leaves declarations and functions
without debug info untouched; inside a function with debug info it
assigns the default location `(0, 0, scope)` to every instruction that
lacks a location or whose location's scope name equals the function's
name, and keeps unchanged exactly the locations whose scope name differs
from the function's name. -/
theorem sweepFunction_spec (F : MachineFunction) :
    (F.isDeclaration = true → sweepFunction F = F) ∧
    (F.subprogram = none → sweepFunction F = F) ∧
    (∀ scope, F.subprogram = some scope → F.isDeclaration = false →
      (sweepFunction F).instrs = F.instrs.map (sweepInstr F.name scope) ∧
      ∀ I : MachineInstr,
        (I.debugLoc = none →
          sweepInstr F.name scope I = ⟨some ⟨0, 0, scope⟩⟩) ∧
        ∀ loc, I.debugLoc = some loc →
          (loc.scope.name ≠ F.name → sweepInstr F.name scope I = I) ∧
          (loc.scope.name = F.name →
            sweepInstr F.name scope I = ⟨some ⟨0, 0, scope⟩⟩)) := by
  refine ⟨?_, ?_, ?_⟩
  · intro h
    simp [sweepFunction, h]
  · intro h
    unfold sweepFunction
    by_cases hd : F.isDeclaration <;> simp [hd, h]
  · intro scope hscope hdecl
    refine ⟨by simp [sweepFunction, hdecl, hscope], ?_⟩
    intro I
    refine ⟨?_, ?_⟩
    · intro h
      simp [sweepInstr, h]
    · intro loc hloc
      refine ⟨?_, ?_⟩
      · intro hne
        simp [sweepInstr, hloc, hne]
      · intro heq
        simp [sweepInstr, hloc, heq]

/-- Witness for C4 (amended): a function without debug info is left
untouched, and inside a tracked function a location from a different
scope survives while a missing location is defaulted. -/
theorem sweepFunction_spec_witness :
    sweepFunction ⟨"f", false, none, [⟨none⟩]⟩ =
      ⟨"f", false, none, [⟨none⟩]⟩ :=
  (sweepFunction_spec ⟨"f", false, none, [⟨none⟩]⟩).2.1 rfl

/-- Counterexample to claim C3 as stated: with one activation allocation
`A` and one tensor view `V` of it, the emitter runs once per value and
attaches TWO records that resolve to the underlying allocation `A` (one
named after the allocation, one named after the view), not exactly one
per underlying allocation. -/
theorem emitDebugGlobalVariable_perView_cex :
    recordsForAllocation
        (emitAllDebugGlobalVariables aiExample []
          [Value.allocActivation "A",
           Value.tensorView "V" (Value.allocActivation "A")])
        (Value.allocActivation "A") = 2 ∧
    (emitAllDebugGlobalVariables aiExample []
        [Value.allocActivation "A",
         Value.tensorView "V" (Value.allocActivation "A")]).map
      DIGlobalVariableExpression.name = ["A", "V"] := by
  refine ⟨by decide, by decide⟩

/-- Claim C3 (amended): every emission call resolves the value to its
underlying allocation first (the resolved origin is never a view), and
the record's address expression and base global are those of the
underlying allocation; however one record is emitted per value passed to
the emitter — each weight, each allocation and each view of an
allocation — so an underlying allocation receives as many records as
there are emitted values resolving to it, the record keeping the name of
the value it was emitted for. -/
theorem emitDebugGlobalVariable_spec (ai : AllocationsInfo)
    (weights instrs : List Value) (a val : Value) :
    (getOrigin val).isView = false ∧
    emitDebugGlobalVariableForValue ai val =
      { name := val.getName
        expr := debugAddressOps (ai.allocatedAddress (getOrigin val))
        attachedTo := baseAddressForKind (ai.valueKind (getOrigin val))
        origin := getOrigin val } ∧
    recordsForAllocation (emitAllDebugGlobalVariables ai weights instrs) a =
      (weights ++ instrs.filter isAllocOrTensorView).countP
        (fun v => decide (getOrigin v = a)) := by
  refine ⟨getOrigin_not_view val, rfl, ?_⟩
  simp only [recordsForAllocation, emitAllDebugGlobalVariables,
    List.countP_append, List.countP_map]
  rfl

/-- Claim C9: with the activation flag off every entry point of the
subsystem is inert — no module flags, no base-pointer globals, no stores,
no written file, no records, no subprograms, no locations; every piece of
state passes through unchanged. -/
theorem emitDebugInfo_off_inert (entryName : String)
    (main : Option LLVMFunction) (irLines : List (List Char))
    (st : ModuleState) (funcs : List MachineFunction)
    (ai : AllocationsInfo) (weights instrs : List Value)
    (dst : DebugInfoState) (F : LLVMFunction)
    (minstrs : List MachineInstr) (firstInstrLineNo : Nat)
    (mainF : DIScopeRef) (instrNum : Nat)
    (builderLoc : Option DILocation) :
    initDebugInfoM false entryName main irLines st = some st ∧
    generateDebugInfoM false funcs ai weights instrs st = some (st, funcs) ∧
    generateFunctionDebugInfoM false dst F minstrs = ([], F, dst, minstrs) ∧
    setCurrentDebugLocation false firstInstrLineNo mainF instrNum
        builderLoc = builderLoc :=
  ⟨rfl, rfl, rfl, rfl⟩

/-- Claim C7: a second `getDebugType` call with the same native type
returns the identical cached descriptor and leaves the state untouched,
and after any sequence of requests starting from the fresh state the
cache holds exactly one entry per distinct native type requested. -/
theorem getDebugType_cached_unique (st : DebugInfoState) (ty : LLVMTy)
    (tys : List LLVMTy) (t : LLVMTy) (ht : t ∈ tys) :
    getDebugType (getDebugType st ty).2 ty =
      ((getDebugType st ty).1, (getDebugType st ty).2) ∧
    (cacheKeys (requestTypes initialDebugInfoState tys)).count t = 1 := by
  refine ⟨getDebugType_idem st ty, ?_⟩
  have hn : (cacheKeys (requestTypes initialDebugInfoState tys)).Nodup :=
    requestTypes_nodup tys initialDebugInfoState
      (by simp [cacheKeys, initialDebugInfoState])
  have hm : t ∈ cacheKeys (requestTypes initialDebugInfoState tys) :=
    requestTypes_mem tys initialDebugInfoState t (Or.inl ht)
  exact List.count_eq_one_of_mem hn hm

/-- Witness for C7: requesting float, pointer-to-float and float again
leaves exactly one cache entry for float, and re-requesting float is the
identity on the state. -/
theorem getDebugType_cached_unique_witness :
    getDebugType (getDebugType initialDebugInfoState .floatTy).2 .floatTy =
      ((getDebugType initialDebugInfoState .floatTy).1,
       (getDebugType initialDebugInfoState .floatTy).2) ∧
    (cacheKeys (requestTypes initialDebugInfoState
        [.floatTy, .ptrTy .floatTy, .floatTy])).count .floatTy = 1 :=
  getDebugType_cached_unique initialDebugInfoState .floatTy
    [.floatTy, .ptrTy .floatTy, .floatTy] .floatTy (by decide)

/-- Claim C8: `getOrCreateFunctionDebugInfo` returns the null descriptor
for every function with an empty or intrinsic (`llvm.`-prefixed) name,
leaving everything unchanged; for every other function, the first call
creates exactly one subprogram descriptor and attaches it, every later
call returns that identical descriptor without changing anything, and N
calls (N ≥ 1) are equivalent to one. -/
theorem getOrCreateFunctionDebugInfo_spec (st : DebugInfoState)
    (F : LLVMFunction) :
    ((F.name = "" ∨ isIntrinsicName F.name = true) →
      getOrCreateFunctionDebugInfo st F = (none, F, st)) ∧
    (F.name ≠ "" → isIntrinsicName F.name = false → F.subprogram = none →
      ∃ spId st1,
        getOrCreateFunctionDebugInfo st F =
          (some spId, { F with subprogram := some spId }, st1) ∧
        subprogramCount st1 = subprogramCount st + 1 ∧
        getOrCreateFunctionDebugInfo st1
            { F with subprogram := some spId } =
          (some spId, { F with subprogram := some spId }, st1) ∧
        ∀ N, 1 ≤ N → ensureSubprogramIter N (F, st) =
          ({ F with subprogram := some spId }, st1)) := by
  constructor
  · exact getOrCreateFunctionDebugInfo_null st F
  · intro hN hI h
    obtain ⟨spId, st1, hcr, hcount⟩ :=
      getOrCreateFunctionDebugInfo_create st F hN hI h
    have hex : getOrCreateFunctionDebugInfo st1
        { F with subprogram := some spId } =
        (some spId, { F with subprogram := some spId }, st1) :=
      getOrCreateFunctionDebugInfo_existing st1 _ spId hN hI rfl
    refine ⟨spId, st1, hcr, hcount, hex, ?_⟩
    intro N hNge
    obtain ⟨n, rfl⟩ : ∃ n, N = n + 1 := ⟨N - 1, by omega⟩
    simp only [ensureSubprogramIter, hcr]
    exact ensureSubprogramIter_fixed n _ _ spId hex

/-- Witness for C8: the entry function `main`, with no subprogram yet,
gets exactly one subprogram descriptor attached on the first call. -/
theorem getOrCreateFunctionDebugInfo_spec_witness :
    ∃ spId st1,
      getOrCreateFunctionDebugInfo initialDebugInfoState
          ⟨"main", LLVMTy.voidTy, [], none⟩ =
        (some spId,
         { (⟨"main", LLVMTy.voidTy, [], none⟩ : LLVMFunction) with
             subprogram := some spId }, st1) ∧
      subprogramCount st1 = subprogramCount initialDebugInfoState + 1 ∧
      getOrCreateFunctionDebugInfo st1
          { (⟨"main", LLVMTy.voidTy, [], none⟩ : LLVMFunction) with
              subprogram := some spId } =
        (some spId,
         { (⟨"main", LLVMTy.voidTy, [], none⟩ : LLVMFunction) with
             subprogram := some spId }, st1) ∧
      ∀ N, 1 ≤ N →
        ensureSubprogramIter N
            (⟨"main", LLVMTy.voidTy, [], none⟩, initialDebugInfoState) =
          ({ (⟨"main", LLVMTy.voidTy, [], none⟩ : LLVMFunction) with
               subprogram := some spId }, st1) :=
  (getOrCreateFunctionDebugInfo_spec initialDebugInfoState
      ⟨"main", LLVMTy.voidTy, [], none⟩).2 (by decide) (by decide) rfl

end GlowDebugInfo
